import Mathlib

/-!
# simplist: the websocket session handler `server.handleWs`

A shallow embedding of `src/main.go`.  The handler is a loop over received
frames with side effects on the database, on the connections it writes to and
on the table of active users.  Here every side effect is explicit state:

* `World` holds what is shared between handlers: the database, the
  `activeUsers` table, the frames written to each connection and the log;
* `Session` holds the local variables of one running `handleWs` call;
* one loop iteration is one call of `unauthStep` (lines 88-139, followed by
  lines 140-173 when the loop is left through `break`) or of `authStep`
  (lines 182-242).

The database (`database/sql` with sqlite3), bcrypt and the websocket codec are
libraries outside the repository; they are parameters (`Env`, `Recv`).
-/

namespace Simplist

/-! ## Wire types (lines 245-320) -/

/-- Go: `type Action string`. -/
abbrev Action := String

abbrev ActionUnknown : Action := ""
abbrev ActionRegister : Action := "register"
abbrev ActionLogin : Action := "login"
abbrev ActionGet : Action := "get"
abbrev ActionInsert : Action := "insert"
abbrev ActionUpdate : Action := "update"
abbrev ActionDelete : Action := "delete"

/-- Go: `type User struct`. -/
structure User where
  Email : String
  Password : String
deriving DecidableEq, Repr

/-- Go: `type Item struct`; the `int64` fields are integers (no arithmetic is
done on them). -/
structure Item where
  Id : Int
  What : String
  CompletedAt : Int
deriving DecidableEq, Repr

/-- Go: `type Message struct`. -/
structure Message where
  Id : Int
  Action : Simplist.Action
  User : Simplist.User
  Item : Simplist.Item
deriving DecidableEq, Repr

/-- Go: `type Response struct`.  A nil and an empty `Items` slice are both the
empty list (both are left out of the JSON by `omitempty`). -/
structure Response where
  MsgId : Int
  Action : Simplist.Action
  Items : List Item
  Error : String
deriving DecidableEq, Repr

/-- Go: `func (msg Message) okResp() Response`. -/
def Message.okResp (msg : Message) : Response :=
  { MsgId := msg.Id, Action := msg.Action, Items := [], Error := "" }

/-- Go: `func (msg Message) itemResp() Response`. -/
def Message.itemResp (msg : Message) : Response :=
  { MsgId := -1, Action := msg.Action, Items := [msg.Item], Error := "" }

/-- Go: `func (msg Message) itemsResp(items []Item) Response`. -/
def Message.itemsResp (msg : Message) (items : List Simplist.Item) : Response :=
  { MsgId := -1, Action := msg.Action, Items := items, Error := "" }

/-- Go: `func (msg Message) errResp(err string) Response`. -/
def Message.errResp (msg : Message) (err : String) : Response :=
  { MsgId := msg.Id, Action := msg.Action, Items := [], Error := err }

/-! ## The libraries the handler calls -/

/-- What is written to a connection: `webs.JSON.Send(ws, resp)` writes a JSON
response, `ws.Write(bytes)` writes raw text. -/
inductive Frame where
  | json (resp : Response)
  | raw (text : String)
deriving DecidableEq, Repr

/-- Outcome of `webs.JSON.Receive(ws, &msg)`.  `msg` is declared once, before
the loops, and every frame is decoded into it, so a field a frame leaves out
keeps its earlier value: the `Message` carried here is the value of the
variable `msg` after the call.
* `ok`: the call returned nil;
* `eof`: it returned an error for which `errors.Is(err, io.EOF)` holds;
* `err`: it returned any other error. -/
inductive Recv where
  | ok (msg : Message)
  | eof
  | err (msg : Message)
deriving DecidableEq, Repr

/-- The errors of `database/sql` the handler tells apart. -/
inductive DBError where
  | constraintUnique
  | noRows
  | other
deriving DecidableEq, Repr

/-- One row of `rows`: the `Item` after `rows.Scan(&item.Id, &item.What,
&item.CompletedAt)` and whether that `Scan` returned an error. -/
structure Row where
  item : Item
  scanErr : Bool
deriving DecidableEq, Repr

/-- The `sql.Result` of the item insert: what `res.LastInsertId()` returns. -/
structure ExecResult where
  lastInsertId : Int
  lastInsertIdErr : Bool
deriving DecidableEq, Repr

/-- The five statements the handler sends to `s.db`, over a database state `σ`.
A call that returns an error returns no other result (for `Query`, `rows` is
then nil).
* `insertUser db email hash`: line 106;
* `selectPasswordHash db email`: lines 118-120, `QueryRow` then `Scan`;
* `selectItems db email`: lines 152 and 221;
* `insertItem db`: line 194, the call passes no values to the statement;
* `updateItem db what completedAt id`: lines 209-212. -/
structure DB (σ : Type) where
  insertUser : σ → String → String → Except DBError σ
  selectPasswordHash : σ → String → Except DBError String
  selectItems : σ → String → Except DBError (List Row)
  insertItem : σ → Except DBError (σ × ExecResult)
  updateItem : σ → String → Int → Int → Except DBError σ

/-- The libraries: the database, `bcrypt.GenerateFromPassword` (`none` when it
returns an error) and `bcrypt.CompareHashAndPassword hash password` (`true`
when it returns nil). -/
structure Env (σ : Type) where
  db : DB σ
  generateFromPassword : String → Option String
  compareHashAndPassword : String → String → Bool

/-! ## State -/

/-- A `sync.Map` from remote address to connection; a connection is named by
its remote address, so only the keys are kept. -/
abbrev ConnsMap := List String

/-- Go: `connsMap.Store(addr, ws)`. -/
def ConnsMap.store (m : ConnsMap) (addr : String) : ConnsMap :=
  if addr ∈ m then m else m ++ [addr]

/-- Go: `connsMap.Delete(addr)`. -/
def ConnsMap.delete (m : ConnsMap) (addr : String) : ConnsMap :=
  m.filter (fun a => a ≠ addr)

/-- What the handlers share.
* `db`: the state behind `s.db`;
* `activeUsers`: `s.activeUsers`, from email to the `sync.Map` value stored
  under it;
* `sent`: every frame written so far, with the connection it was written to,
  oldest first (the results of `Send` and `Write` are discarded by the code);
* `logged`: the format strings passed to `logFunc`, oldest first. -/
structure World (σ : Type) where
  db : σ
  activeUsers : List (String × ConnsMap)
  sent : List (String × Frame)
  logged : List String

/-- Where a `handleWs` call stands. -/
inductive Phase where
  | unauthenticated
  | authenticated
  | closed
  | panicked
deriving DecidableEq, Repr

/-- The local variables of one `handleWs` call.
* `addr`: `ws.RemoteAddr().String()`;
* `phase`: first loop, second loop, returned, or ended by a run-time panic;
* `email`: the variable `email` of line 140;
* `connsMap`: the local variable `connsMap` of line 142. -/
structure Session where
  addr : String
  phase : Phase
  email : String
  connsMap : ConnsMap
deriving DecidableEq, Repr

/-- A `handleWs` call that has just started on the connection `addr`. -/
def newSession (addr : String) : Session :=
  { addr := addr, phase := .unauthenticated, email := "", connsMap := [] }

/-- Go: `webs.JSON.Send(conn, resp)` and `ws.Write(bytes)`. -/
def send {σ : Type} (w : World σ) (conn : String) (f : Frame) : World σ :=
  { w with sent := w.sent ++ [(conn, f)] }

/-- Go: `logFunc(format, args...)`. -/
def logf {σ : Type} (w : World σ) (format : String) : World σ :=
  { w with logged := w.logged ++ [format] }

/-- Go: `s.activeUsers.LoadOrStore(key, value)`: the table afterwards and the
value now stored under `key`. -/
def loadOrStore (m : List (String × ConnsMap)) (key : String) (value : ConnsMap) :
    List (String × ConnsMap) × ConnsMap :=
  match m.lookup key with
  | some actual => (m, actual)
  | none => (m ++ [(key, value)], value)

/-- Go: the closure `broadcast` (lines 175-180): `connsMap.Range` sends `resp`
to every connection in the handler's `connsMap`. -/
def broadcast {σ : Type} (w : World σ) (connsMap : ConnsMap) (resp : Response) : World σ :=
  connsMap.foldl (fun acc conn => send acc conn (.json resp)) w

/-- Go: the `for rows.Next()` loops (lines 157-164 and 228-235): a row whose
`Scan` fails is logged, sets `respErr`, and its item is appended all the same. -/
def scanRows {σ : Type} (w : World σ) : List Row → List Item → String → World σ × List Item × String
  | [], items, respErr => (w, items, respErr)
  | row :: rest, items, respErr =>
    if row.scanErr then
      scanRows (logf w "error querying row: %v") rest (items ++ [row.item]) "internal server error"
    else
      scanRows w rest (items ++ [row.item]) respErr

/-- The deferred calls when `handleWs` ends after line 144:
`connsMap.Delete(addr)` and `ws.Close()`. -/
def Session.unwind (s : Session) (phase : Phase) : Session :=
  { s with phase := phase, connsMap := ConnsMap.delete s.connsMap s.addr }

/-! ## The handler -/

/-- Lines 140-173, run once when the first loop is left through `break`.
`LoadOrStore` is given a `sync.Map` VALUE and `iConnsMap.(sync.Map)` copies the
stored value into the local `connsMap`; `Store` then changes that local copy,
never the value kept in `s.activeUsers`.
When `s.db.Query` fails the error is logged and execution goes on to
`rows.Next()` with `rows` nil, a nil dereference: the handler panics and its
deferred calls run. -/
def joinAndPush {σ : Type} (env : Env σ) (w : World σ) (s : Session) (msg : Message) :
    World σ × Session :=
  let email := msg.User.Email
  let stored := loadOrStore w.activeUsers email []
  let connsMap := ConnsMap.store stored.2 s.addr
  let w1 : World σ := { w with activeUsers := stored.1 }
  let s1 : Session := { s with phase := .authenticated, email := email, connsMap := connsMap }
  if msg.Action = ActionLogin then
    match env.db.selectItems w1.db email with
    | .error _ => (logf w1 "error getting items: %v", s1.unwind .panicked)
    | .ok rows =>
      let scanned := scanRows w1 rows [] ""
      (send scanned.1 s1.addr
        (.json { MsgId := -1, Action := ActionGet, Items := scanned.2.1, Error := scanned.2.2 }), s1)
  else
    (w1, s1)

/-- One iteration of the first loop (lines 88-139); when the iteration ends in
`break`, lines 140-173 follow.
In the register case the test `if errors.Is(err, sqlite3.ErrorConstraintUnique);
err != nil` discards the result of `errors.Is` and tests `err != nil` again, and
a failed `GenerateFromPassword` is answered without `continue`. -/
def unauthStep {σ : Type} (env : Env σ) (w : World σ) (s : Session) (r : Recv) :
    World σ × Session :=
  match r with
  | .eof => (send w s.addr (.raw "bad message, closing"), { s with phase := .closed })
  | .err _ => (send w s.addr (.raw "bad message, closing"), { s with phase := .closed })
  | .ok msg =>
    if msg.Action = ActionRegister then
      if msg.User.Email = "" then
        (send w s.addr (.json (msg.errResp "invalid email or password")), s)
      else
        let hashed := env.generateFromPassword msg.User.Password
        let w1 := if hashed.isNone then
            send w s.addr (.json (msg.errResp "bad email or password")) else w
        let passwordHash := hashed.getD ""
        match env.db.insertUser w1.db msg.User.Email passwordHash with
        | .error err =>
          if (some err).isSome then
            (send w1 s.addr (.json (msg.errResp "user already exists")), s)
          else
            (send (logf w1 "error creating user (email: %s): %v") s.addr
              (.json (msg.errResp "internal server error")), s)
        | .ok db1 =>
          joinAndPush env (send { w1 with db := db1 } s.addr (.json msg.okResp)) s msg
    else if msg.Action = ActionLogin then
      match env.db.selectPasswordHash w.db msg.User.Email with
      | .error err =>
        if err = .noRows then
          (send w s.addr (.raw ""), s)
        else
          (send (logf w "error getting user (email: %s) data: %v") s.addr
            (.raw "internal server error"), s)
      | .ok passwordHash =>
        if env.compareHashAndPassword passwordHash msg.User.Password = false then
          (send w s.addr (.json (msg.errResp "invalid password")), s)
        else
          joinAndPush env (send w s.addr (.json msg.okResp)) s msg
    else
      (send w s.addr (.json (msg.errResp "invalid action")), s)

/-- One iteration of the second loop (lines 182-242).  There is no case for
`ActionDelete`: a delete message reaches `default`.  In the get case a failed
`s.db.Query` is answered without `continue`, so `rows.Next()` runs on a nil
`rows` and the handler panics. -/
def authStep {σ : Type} (env : Env σ) (w : World σ) (s : Session) (r : Recv) :
    World σ × Session :=
  match r with
  | .eof => (w, s.unwind .closed)
  | .err msg => (send w s.addr (.json (msg.errResp "bad message")), s)
  | .ok msg =>
    if msg.Action = ActionInsert then
      match env.db.insertItem w.db with
      | .error _ =>
        (send (logf w "error inserting item: %v") s.addr
          (.json (msg.errResp "internal server error")), s)
      | .ok (db1, res) =>
        let w1 : World σ := { w with db := db1 }
        let w2 := if res.lastInsertIdErr then logf w1 "error gettintg last insert id: %v" else w1
        let msg1 : Message := { msg with Item := { msg.Item with Id := res.lastInsertId } }
        (broadcast w2 s.connsMap msg1.itemResp, s)
    else if msg.Action = ActionUpdate then
      match env.db.updateItem w.db msg.Item.What msg.Item.CompletedAt msg.Item.Id with
      | .error _ =>
        (send (logf w "error inserting item: %v") s.addr
          (.json (msg.errResp "internal server error")), s)
      | .ok db1 =>
        (broadcast (send { w with db := db1 } s.addr (.json msg.okResp)) s.connsMap msg.itemResp, s)
    else if msg.Action = ActionGet then
      match env.db.selectItems w.db s.email with
      | .error _ =>
        (send (logf w "error querying items: %v") s.addr
          (.json (msg.errResp "internal server error")), s.unwind .panicked)
      | .ok rows =>
        let scanned := scanRows w rows [] ""
        (send scanned.1 s.addr
          (.json { msg.errResp scanned.2.2 with Items := scanned.2.1 }), s)
    else
      (send w s.addr (.json (msg.errResp "invalid action")), s)

/-- One received frame handled by a `handleWs` call: the loop it is in decides.
A call that has returned or panicked handles nothing. -/
def handleStep {σ : Type} (env : Env σ) (w : World σ) (s : Session) (r : Recv) :
    World σ × Session :=
  match s.phase with
  | .unauthenticated => unauthStep env w s r
  | .authenticated => authStep env w s r
  | .closed => (w, s)
  | .panicked => (w, s)

/-- Go: `handleWs` on the receive outcomes `rs`, in order. -/
def handleWs {σ : Type} (env : Env σ) (w : World σ) (s : Session) : List Recv → World σ × Session
  | [] => (w, s)
  | r :: rs =>
    let next := handleStep env w s r
    handleWs env next.1 next.2 rs

/-- The frames written to the connection `conn`, oldest first. -/
def World.received {σ : Type} (w : World σ) (conn : String) : List Frame :=
  (w.sent.filter (fun p => p.1 = conn)).map (fun p => p.2)

/-! ## An in-memory store, to run the handler on concrete inputs -/

/-- State of the in-memory store: the rows of `users` (email, password hash),
the rows of `items` with the email they are filed under, the next generated
id, and whether each table currently fails every statement. -/
structure MemStore where
  users : List (String × String)
  items : List (String × Item)
  nextId : Int
  usersDown : Bool
  itemsDown : Bool
deriving DecidableEq, Repr

/-- The five statements on `MemStore`: a second user row with the same email
violates uniqueness, a lookup without a row is `noRows`, and the item insert
(which is passed no values) files an item with default fields under no email.
The update statement of line 210, `UPDATE items SET(what, completed_at) SET
what=?, completedAt=? WHERE id=?`, is not valid SQL: it is refused with an
error for every id and changes nothing. -/
def memDB : DB MemStore where
  insertUser st email hash :=
    if st.usersDown then .error .other
    else if (st.users.lookup email).isSome then .error .constraintUnique
    else .ok { st with users := st.users ++ [(email, hash)] }
  selectPasswordHash st email :=
    if st.usersDown then .error .other
    else match st.users.lookup email with
      | some hash => .ok hash
      | none => .error .noRows
  selectItems st email :=
    if st.itemsDown then .error .other
    else .ok ((st.items.filter (fun p => p.1 = email)).map
      (fun p => { item := p.2, scanErr := false }))
  insertItem st :=
    if st.itemsDown then .error .other
    else .ok ({ st with
        items := st.items ++ [("", { Id := st.nextId, What := "", CompletedAt := 0 })],
        nextId := st.nextId + 1 },
      { lastInsertId := st.nextId, lastInsertIdErr := false })
  updateItem _ _ _ _ := .error .other

/-- The in-memory store with a stand-in for bcrypt: the hash of a password is
the password behind a fixed tag, and passwords over 72 bytes are refused. -/
def memEnv : Env MemStore where
  db := memDB
  generateFromPassword password :=
    if password.length > 72 then none else some ("bcrypt:" ++ password)
  compareHashAndPassword hash password := hash == "bcrypt:" ++ password

/-- A store with one user, `ann@example.org` with password `tea`, who owns two
items. -/
def annStore : MemStore :=
  { users := [("ann@example.org", "bcrypt:tea")],
    items := [("ann@example.org", { Id := 1, What := "milk", CompletedAt := 0 }),
              ("ann@example.org", { Id := 2, What := "eggs", CompletedAt := 1700000000 })],
    nextId := 3, usersDown := false, itemsDown := false }

/-- A server that has just started on `annStore`. -/
def annWorld : World MemStore :=
  { db := annStore, activeUsers := [], sent := [], logged := [] }

/-- The same server when every statement on `items` fails. -/
def annWorldItemsDown : World MemStore :=
  { annWorld with db := { annStore with itemsDown := true } }

/-- The same server when every statement on `users` fails. -/
def annWorldUsersDown : World MemStore :=
  { annWorld with db := { annStore with usersDown := true } }

/-- A message with the given id, action, user and item. -/
def mkMsg (id : Int) (action : Action) (email password : String) (item : Item) : Message :=
  { Id := id, Action := action, User := { Email := email, Password := password }, Item := item }

/-- The zero `Item`. -/
def noItem : Item := { Id := 0, What := "", CompletedAt := 0 }

/-- Ann logs in with the right password. -/
def annLogin : Message := mkMsg 7 ActionLogin "ann@example.org" "tea" noItem

/-- Ann's first connection once she has logged in on it. -/
def annSession : Session :=
  { addr := "10.0.0.1:5000", phase := .authenticated, email := "ann@example.org",
    connsMap := ["10.0.0.1:5000"] }

/-- Ann asks for her items before logging in. -/
def annEarlyGet : Message := mkMsg 5 ActionGet "ann@example.org" "tea" noItem

/-- Ann logs in with a wrong password. -/
def annWrongLogin : Message := mkMsg 11 ActionLogin "ann@example.org" "coffee" noItem

/-- An insert of the item "tea". -/
def insertTea : Message :=
  mkMsg 8 ActionInsert "" "" { Id := 0, What := "tea", CompletedAt := 0 }

/-- An update of item 99, an id no stored item has. -/
def updateMissing : Message :=
  mkMsg 21 ActionUpdate "" "" { Id := 99, What := "bread", CompletedAt := 0 }

/-- A delete of item 1, Ann's "milk". -/
def deleteMilk : Message := mkMsg 22 ActionDelete "" "" { Id := 1, What := "", CompletedAt := 0 }

/-- A get that names another user in its user field. -/
def getAsEve : Message := mkMsg 9 ActionGet "eve@example.org" "" noItem

/-- Bob registers with an empty password. -/
def bobRegisterNoPassword : Message := mkMsg 3 ActionRegister "bob@example.org" "" noItem

/-- Bob registers with a password. -/
def bobRegister : Message := mkMsg 4 ActionRegister "bob@example.org" "pw" noItem

/-- Ann logs in on a first connection of a server that has just started. -/
def annFirst : World MemStore × Session :=
  handleStep memEnv annWorld (newSession "10.0.0.1:5000") (.ok annLogin)

/-- Then Ann logs in on a second connection. -/
def annSecond : World MemStore × Session :=
  handleStep memEnv annFirst.1 (newSession "10.0.0.2:6000") (.ok annLogin)

/-- Then the first connection sends an insert. -/
def annInsert : World MemStore × Session :=
  handleStep memEnv annSecond.1 annFirst.2 (.ok insertTea)

/-! ## Basic facts -/

theorem send_sent {σ : Type} (w : World σ) (conn : String) (f : Frame) :
    (send w conn f).sent = w.sent ++ [(conn, f)] := rfl

theorem broadcast_sent {σ : Type} (connsMap : ConnsMap) (w : World σ) (resp : Response) :
    (broadcast w connsMap resp).sent = w.sent ++ connsMap.map (fun c => (c, Frame.json resp)) := by
  induction connsMap generalizing w with
  | nil => simp [broadcast]
  | cons c cs ih =>
    have h := ih (send w c (.json resp))
    simp only [broadcast, List.foldl_cons] at h ⊢
    rw [h, send_sent]
    simp

theorem broadcast_rest {σ : Type} (connsMap : ConnsMap) (w : World σ) (resp : Response) :
    (broadcast w connsMap resp).db = w.db ∧
    (broadcast w connsMap resp).activeUsers = w.activeUsers ∧
    (broadcast w connsMap resp).logged = w.logged := by
  induction connsMap generalizing w with
  | nil => simp [broadcast]
  | cons c cs ih =>
    have h := ih (send w c (.json resp))
    simp only [broadcast, List.foldl_cons] at h ⊢
    simpa [send] using h

theorem scanRows_world {σ : Type} (rows : List Row) (w : World σ) (items : List Item)
    (respErr : String) :
    (scanRows w rows items respErr).1.sent = w.sent ∧
    (scanRows w rows items respErr).1.db = w.db ∧
    (scanRows w rows items respErr).1.activeUsers = w.activeUsers := by
  induction rows generalizing w items respErr with
  | nil => simp [scanRows]
  | cons row rest ih =>
    by_cases h : row.scanErr = true
    · have h2 := ih (logf w "error querying row: %v") (items ++ [row.item]) "internal server error"
      simpa [scanRows, h, logf] using h2
    · have h2 := ih w (items ++ [row.item]) respErr
      simpa [scanRows, h] using h2

theorem scanRows_all_scanned {σ : Type} (rows : List Row) (w : World σ) (items : List Item)
    (respErr : String) (hscan : ∀ row ∈ rows, row.scanErr = false) :
    scanRows w rows items respErr = (w, items ++ rows.map (fun row => row.item), respErr) := by
  induction rows generalizing items with
  | nil => simp [scanRows]
  | cons row rest ih =>
    have h1 : row.scanErr = false := hscan row (List.mem_cons_self _ _)
    have h2 := ih (items ++ [row.item]) (fun r hr => hscan r (List.mem_cons_of_mem _ hr))
    simp [scanRows, h1, h2]

/-! ## The unauthenticated loop -/

/-- C10: while unauthenticated, a decoded message whose action is neither
register nor login is answered with the error "invalid action" carrying the
message id and action, on the sender's connection only; the database, the table
of active users and the log are untouched, the session is unchanged (still
unauthenticated, not closed, its connsMap as before), and the next frame is
handled by the unauthenticated loop again. -/
theorem unauthenticated_other_action_invalid {σ : Type} (env : Env σ) (w : World σ)
    (s : Session) (msg : Message) (hphase : s.phase = .unauthenticated)
    (hreg : msg.Action ≠ ActionRegister) (hlogin : msg.Action ≠ ActionLogin) :
    handleStep env w s (.ok msg) =
      ({ w with sent := w.sent ++ [(s.addr, .json
          { MsgId := msg.Id, Action := msg.Action, Items := [], Error := "invalid action" })] }, s)
    ∧ (handleStep env w s (.ok msg)).2.phase = .unauthenticated
    ∧ ∀ r, handleStep env (handleStep env w s (.ok msg)).1 (handleStep env w s (.ok msg)).2 r
        = unauthStep env (handleStep env w s (.ok msg)).1 s r := by
  have h : handleStep env w s (.ok msg) =
      ({ w with sent := w.sent ++ [(s.addr, .json
          { MsgId := msg.Id, Action := msg.Action, Items := [], Error := "invalid action" })] }, s) := by
    simp [handleStep, hphase, unauthStep, hreg, hlogin, send, Message.errResp]
  refine ⟨h, ?_, ?_⟩
  · rw [h]; exact hphase
  · intro r
    rw [h]
    simp [handleStep, hphase]

/-- A concrete instance: Ann sends a get before logging in. -/
theorem unauthenticated_other_action_invalid_witness :
    (newSession "10.0.0.1:5000").phase = .unauthenticated
    ∧ annEarlyGet.Action ≠ ActionRegister ∧ annEarlyGet.Action ≠ ActionLogin
    ∧ handleStep memEnv annWorld (newSession "10.0.0.1:5000") (.ok annEarlyGet) =
      ({ annWorld with sent := annWorld.sent ++ [("10.0.0.1:5000", .json
          { MsgId := 5, Action := "get", Items := [], Error := "invalid action" })] },
        newSession "10.0.0.1:5000") :=
  ⟨rfl, by decide, by decide,
    (unauthenticated_other_action_invalid memEnv annWorld (newSession "10.0.0.1:5000")
      annEarlyGet rfl (by decide) (by decide)).1⟩

/-- C3: while unauthenticated, a login whose identity has a stored hash that
the secret does not match is answered with the error "invalid password"
(non-empty) carrying the message id, on the sender's connection only; the
session is unchanged (still unauthenticated, its connsMap as before), nothing
is stored in the table of active users, and the next frame is handled by the
unauthenticated loop again. -/
theorem login_wrong_secret_rejected {σ : Type} (env : Env σ) (w : World σ)
    (s : Session) (msg : Message) (passwordHash : String)
    (hphase : s.phase = .unauthenticated) (hact : msg.Action = ActionLogin)
    (hrow : env.db.selectPasswordHash w.db msg.User.Email = .ok passwordHash)
    (hbad : env.compareHashAndPassword passwordHash msg.User.Password = false) :
    handleStep env w s (.ok msg) =
      ({ w with sent := w.sent ++ [(s.addr, .json
          { MsgId := msg.Id, Action := ActionLogin, Items := [], Error := "invalid password" })] }, s)
    ∧ (handleStep env w s (.ok msg)).2.phase = .unauthenticated
    ∧ (handleStep env w s (.ok msg)).2.connsMap = s.connsMap
    ∧ (handleStep env w s (.ok msg)).1.activeUsers = w.activeUsers
    ∧ ∀ r, handleStep env (handleStep env w s (.ok msg)).1 (handleStep env w s (.ok msg)).2 r
        = unauthStep env (handleStep env w s (.ok msg)).1 s r := by
  have h : handleStep env w s (.ok msg) =
      ({ w with sent := w.sent ++ [(s.addr, .json
          { MsgId := msg.Id, Action := ActionLogin, Items := [], Error := "invalid password" })] }, s) := by
    have hne : ActionLogin ≠ ActionRegister := by decide
    simp [handleStep, hphase, unauthStep, hact, hne, hrow, hbad, send, Message.errResp]
  refine ⟨h, ?_, ?_, ?_, ?_⟩
  · rw [h]; exact hphase
  · rw [h]
  · rw [h]
  · intro r
    rw [h]
    simp [handleStep, hphase]

/-- A concrete instance: Ann logs in with the password "coffee". -/
theorem login_wrong_secret_rejected_witness :
    (newSession "10.0.0.1:5000").phase = .unauthenticated
    ∧ annWrongLogin.Action = ActionLogin
    ∧ memEnv.db.selectPasswordHash annWorld.db annWrongLogin.User.Email = .ok "bcrypt:tea"
    ∧ memEnv.compareHashAndPassword "bcrypt:tea" annWrongLogin.User.Password = false
    ∧ handleStep memEnv annWorld (newSession "10.0.0.1:5000") (.ok annWrongLogin) =
      ({ annWorld with sent := annWorld.sent ++ [("10.0.0.1:5000", .json
          { MsgId := 11, Action := ActionLogin, Items := [], Error := "invalid password" })] },
        newSession "10.0.0.1:5000") :=
  ⟨rfl, rfl, rfl, by decide,
    (login_wrong_secret_rejected memEnv annWorld (newSession "10.0.0.1:5000")
      annWrongLogin "bcrypt:tea" rfl rfl rfl (by decide)).1⟩

/-! ## The authenticated loop -/

theorem authStep_ok_phase {σ : Type} (env : Env σ) (w : World σ) (s : Session) (msg : Message) :
    (authStep env w s (.ok msg)).2 = s
    ∨ ((authStep env w s (.ok msg)).2.phase = .panicked
        ∧ ∃ f, (authStep env w s (.ok msg)).1.sent = w.sent ++ [f]) := by
  simp only [authStep]
  split_ifs
  · split <;> simp
  · split <;> simp
  · split
    · right
      simp [Session.unwind, send, logf]
    · simp
  · simp

/-- The receive site of the authenticated loop (lines 183-191): a receive that
fails with an error other than EOF is answered with exactly one response, the
error "bad message", on the sender's connection, and the session is unchanged
(still authenticated, its connsMap as before, the next frame handled by the
authenticated loop); a receive that reports EOF writes nothing, ends the
handler and deletes the connection from the handler's own connsMap.  The
handler returns, as opposed to panics, only on EOF, and EOF is the only outcome
after which the loop is left with nothing written. -/
theorem authenticated_receive_outcomes {σ : Type} (env : Env σ) (w : World σ)
    (s : Session) (hphase : s.phase = .authenticated) :
    (∀ msg, handleStep env w s (.err msg) =
        ({ w with sent := w.sent ++ [(s.addr, .json
            { MsgId := msg.Id, Action := msg.Action, Items := [], Error := "bad message" })] }, s))
    ∧ (∀ msg r, handleStep env (handleStep env w s (.err msg)).1
          (handleStep env w s (.err msg)).2 r
        = authStep env (handleStep env w s (.err msg)).1 s r)
    ∧ handleStep env w s .eof =
        (w, { s with phase := .closed, connsMap := s.connsMap.filter (fun a => a ≠ s.addr) })
    ∧ s.addr ∉ (handleStep env w s .eof).2.connsMap
    ∧ (∀ r, (handleStep env w s r).2.phase = .closed ↔ r = .eof)
    ∧ (∀ r, ((handleStep env w s r).2.phase ≠ .authenticated
          ∧ (handleStep env w s r).1.sent = w.sent) ↔ r = .eof) := by
  have hstep : ∀ r, handleStep env w s r = authStep env w s r := by
    intro r; simp [handleStep, hphase]
  have herr : ∀ msg, handleStep env w s (.err msg) =
        ({ w with sent := w.sent ++ [(s.addr, .json
            { MsgId := msg.Id, Action := msg.Action, Items := [], Error := "bad message" })] }, s) := by
    intro msg; rw [hstep]; simp [authStep, send, Message.errResp]
  have heof : handleStep env w s .eof =
        (w, { s with phase := .closed, connsMap := s.connsMap.filter (fun a => a ≠ s.addr) }) := by
    rw [hstep]; simp [authStep, Session.unwind, ConnsMap.delete]
  refine ⟨herr, ?_, heof, ?_, ?_, ?_⟩
  · intro msg r
    rw [herr]
    simp [handleStep, hphase]
  · rw [heof]
    simp
  · intro r
    cases r with
    | eof => simp [heof]
    | err msg => simp [herr, hphase]
    | ok msg =>
      rw [hstep]
      rcases authStep_ok_phase env w s msg with h | ⟨h, _⟩
      · simp [h, hphase]
      · simp [h]
  · intro r
    cases r with
    | eof => simp [heof]
    | err msg => simp [herr, hphase]
    | ok msg =>
      rw [hstep]
      rcases authStep_ok_phase env w s msg with h | ⟨_, f, h⟩
      · simp [h, hphase]
      · simp [h]

/-- A concrete instance: an undecodable frame, and EOF, on Ann's connection. -/
theorem authenticated_receive_outcomes_witness :
    annSession.phase = .authenticated
    ∧ handleStep memEnv annWorld annSession (.err getAsEve) =
        ({ annWorld with sent := annWorld.sent ++ [("10.0.0.1:5000", .json
            { MsgId := 9, Action := "get", Items := [], Error := "bad message" })] }, annSession)
    ∧ handleStep memEnv annWorld annSession .eof =
        (annWorld, { annSession with phase := .closed, connsMap := [] }) :=
  ⟨rfl,
    (authenticated_receive_outcomes memEnv annWorld annSession rfl).1 getAsEve,
    (authenticated_receive_outcomes memEnv annWorld annSession rfl).2.2.1⟩

/-- C6 (amended): in the authenticated loop an update is never answered with
"item not found".  When the store reports an error for the UPDATE statement the
sender gets one response with the error "internal server error" and nothing
else is written; when the store reports no error (the code does not look at
whether a row had that id) the sender gets an ok response carrying the message
id, followed by one response with msgId = -1, action = update and the message's
item to every connection in the handler's connsMap. -/
theorem update_outcomes {σ : Type} (env : Env σ) (w : World σ) (s : Session) (msg : Message)
    (hphase : s.phase = .authenticated) (hact : msg.Action = ActionUpdate) :
    (∀ e, env.db.updateItem w.db msg.Item.What msg.Item.CompletedAt msg.Item.Id = .error e →
      handleStep env w s (.ok msg) =
        ({ w with
            sent := w.sent ++ [(s.addr, .json
              { MsgId := msg.Id, Action := ActionUpdate, Items := [],
                Error := "internal server error" })],
            logged := w.logged ++ ["error inserting item: %v"] }, s))
    ∧ (∀ db1, env.db.updateItem w.db msg.Item.What msg.Item.CompletedAt msg.Item.Id = .ok db1 →
      (handleStep env w s (.ok msg)).1.sent =
          w.sent ++ (s.addr, .json
              { MsgId := msg.Id, Action := ActionUpdate, Items := [], Error := "" })
            :: s.connsMap.map (fun c => (c, .json
              { MsgId := -1, Action := ActionUpdate, Items := [msg.Item], Error := "" }))
      ∧ (handleStep env w s (.ok msg)).1.db = db1
      ∧ (handleStep env w s (.ok msg)).2 = s)
    ∧ (∀ conn resp, (conn, Frame.json resp) ∈ (handleStep env w s (.ok msg)).1.sent →
        (conn, Frame.json resp) ∈ w.sent ∨ resp.Error ≠ "item not found") := by
  have hne1 : ActionUpdate ≠ ActionInsert := by decide
  have herr : ∀ e, env.db.updateItem w.db msg.Item.What msg.Item.CompletedAt msg.Item.Id
      = .error e →
      handleStep env w s (.ok msg) =
        ({ w with
            sent := w.sent ++ [(s.addr, .json
              { MsgId := msg.Id, Action := ActionUpdate, Items := [],
                Error := "internal server error" })],
            logged := w.logged ++ ["error inserting item: %v"] }, s) := by
    intro e he
    simp [handleStep, hphase, authStep, hact, hne1, he, send, logf, Message.errResp]
  have hok : ∀ db1, env.db.updateItem w.db msg.Item.What msg.Item.CompletedAt msg.Item.Id
      = .ok db1 →
      handleStep env w s (.ok msg) =
        (broadcast (send { w with db := db1 } s.addr (.json msg.okResp)) s.connsMap
          msg.itemResp, s) := by
    intro db1 he
    simp [handleStep, hphase, authStep, hact, hne1, he]
  refine ⟨herr, ?_, ?_⟩
  · intro db1 he
    rw [hok db1 he]
    refine ⟨?_, ?_, rfl⟩
    · simp [broadcast_sent, send, Message.okResp, Message.itemResp, hact]
    · simp [(broadcast_rest _ _ _).1, send]
  · intro conn resp hmem
    cases he : env.db.updateItem w.db msg.Item.What msg.Item.CompletedAt msg.Item.Id with
    | error e =>
      rw [herr e he] at hmem
      simp only [List.mem_append, List.mem_singleton, Prod.mk.injEq, Frame.json.injEq] at hmem
      rcases hmem with h | ⟨_, h⟩
      · exact Or.inl h
      · right; rw [h]; simp
    | ok db1 =>
      rw [hok db1 he, broadcast_sent] at hmem
      simp only [send, List.mem_append, List.mem_singleton, List.mem_map, Prod.mk.injEq,
        Frame.json.injEq] at hmem
      rcases hmem with (h | ⟨_, h⟩) | ⟨c, _, _, h⟩
      · exact Or.inl h
      · right; rw [h]; simp [Message.okResp]
      · right; rw [← h]; simp [Message.itemResp]

/-- A concrete instance: an update of item 99 on Ann's connection; the store
refuses the statement, the sender gets "internal server error" and nothing else
is written. -/
theorem update_outcomes_witness :
    annSession.phase = .authenticated ∧ updateMissing.Action = ActionUpdate
    ∧ memEnv.db.updateItem annWorld.db updateMissing.Item.What updateMissing.Item.CompletedAt
        updateMissing.Item.Id = .error .other
    ∧ handleStep memEnv annWorld annSession (.ok updateMissing) =
        ({ annWorld with
            sent := annWorld.sent ++ [("10.0.0.1:5000", .json
              { MsgId := 21, Action := ActionUpdate, Items := [],
                Error := "internal server error" })],
            logged := annWorld.logged ++ ["error inserting item: %v"] }, annSession)
    ∧ (∀ conn resp, (conn, Frame.json resp)
          ∈ (handleStep memEnv annWorld annSession (.ok updateMissing)).1.sent →
        (conn, Frame.json resp) ∈ annWorld.sent ∨ resp.Error ≠ "item not found") :=
  ⟨rfl, rfl, rfl,
    (update_outcomes memEnv annWorld annSession updateMissing rfl rfl).1 .other rfl,
    (update_outcomes memEnv annWorld annSession updateMissing rfl rfl).2.2⟩

/-- C6 as stated fails: no stored item has id 99, and the update of item 99 is
answered with the error "internal server error", not "item not found"; that
response is the only frame written. -/
theorem update_missing_item_counterexample :
    annStore.items.map (fun p => p.2.Id) = [1, 2] ∧ updateMissing.Item.Id = 99
    ∧ (handleStep memEnv annWorld annSession (.ok updateMissing)).1.sent =
        [("10.0.0.1:5000", .json
          { MsgId := 21, Action := "update", Items := [], Error := "internal server error" })]
    ∧ ("10.0.0.1:5000", Frame.json (updateMissing.errResp "item not found"))
        ∉ (handleStep memEnv annWorld annSession (.ok updateMissing)).1.sent := by
  decide

/-- C7 (amended): in the authenticated loop a delete message, whether or not
an item with its id is stored, is answered on the sender's connection with one
response carrying the message id, action = delete and the error "invalid
action"; the store is not touched, nothing is broadcast and the session is
unchanged; a second delete of the same id gets the same error response. -/
theorem delete_answered_invalid_action {σ : Type} (env : Env σ) (w : World σ) (s : Session)
    (msg : Message) (hphase : s.phase = .authenticated) (hact : msg.Action = ActionDelete) :
    handleStep env w s (.ok msg) =
      ({ w with sent := w.sent ++ [(s.addr, .json
          { MsgId := msg.Id, Action := ActionDelete, Items := [], Error := "invalid action" })] }, s)
    ∧ handleWs env w s [.ok msg, .ok msg] =
      ({ w with sent := w.sent ++
          [(s.addr, .json
            { MsgId := msg.Id, Action := ActionDelete, Items := [], Error := "invalid action" }),
           (s.addr, .json
            { MsgId := msg.Id, Action := ActionDelete, Items := [], Error := "invalid action" })] },
        s) := by
  have hne1 : ActionDelete ≠ ActionInsert := by decide
  have hne2 : ActionDelete ≠ ActionUpdate := by decide
  have hne3 : ActionDelete ≠ ActionGet := by decide
  have h : ∀ w0 : World σ, handleStep env w0 s (.ok msg) =
      ({ w0 with sent := w0.sent ++ [(s.addr, .json
          { MsgId := msg.Id, Action := ActionDelete, Items := [], Error := "invalid action" })] },
        s) := by
    intro w0
    simp [handleStep, hphase, authStep, hact, hne1, hne2, hne3, send, Message.errResp]
  refine ⟨h w, ?_⟩
  simp [handleWs, h]

/-- A concrete instance: a delete of item 1 on Ann's connection. -/
theorem delete_answered_invalid_action_witness :
    annSession.phase = .authenticated ∧ deleteMilk.Action = ActionDelete
    ∧ handleStep memEnv annWorld annSession (.ok deleteMilk) =
      ({ annWorld with sent := annWorld.sent ++ [("10.0.0.1:5000", .json
          { MsgId := 22, Action := ActionDelete, Items := [], Error := "invalid action" })] },
        annSession) :=
  ⟨rfl, rfl, (delete_answered_invalid_action memEnv annWorld annSession deleteMilk rfl rfl).1⟩

/-- C7 as stated fails: item 1 is stored, and after a delete of item 1 the
store still holds it and the only frame written is the error "invalid action";
no response with msgId = -1 is sent. -/
theorem delete_existing_item_counterexample :
    annStore.items.map (fun p => p.2.Id) = [1, 2] ∧ deleteMilk.Item.Id = 1
    ∧ (handleStep memEnv annWorld annSession (.ok deleteMilk)).1.db = annStore
    ∧ (handleStep memEnv annWorld annSession (.ok deleteMilk)).1.sent =
        [("10.0.0.1:5000", .json
          { MsgId := 22, Action := "delete", Items := [], Error := "invalid action" })] := by
  decide

/-! ## Where the code falls short of its contract -/

/-- C1 (the code at the failing input): Ann is logged in on two connections;
an insert sent on the first is broadcast to the first connection only, because
each handler ranges over its own copy of the connection map: the second
connection receives nothing, and the value stored under Ann's email in the
table of active users is still the empty map. -/
theorem insert_broadcast_misses_second_connection :
    annFirst.2.phase = .authenticated ∧ annSecond.2.phase = .authenticated
    ∧ annFirst.2.email = "ann@example.org" ∧ annSecond.2.email = "ann@example.org"
    ∧ annFirst.2.connsMap = ["10.0.0.1:5000"] ∧ annSecond.2.connsMap = ["10.0.0.2:6000"]
    ∧ annInsert.1.activeUsers = [("ann@example.org", [])]
    ∧ annInsert.1.sent = annSecond.1.sent ++ [("10.0.0.1:5000", .json
        { MsgId := -1, Action := "insert",
          Items := [{ Id := 3, What := "tea", CompletedAt := 0 }], Error := "" })]
    ∧ annInsert.1.received "10.0.0.2:6000" = annSecond.1.received "10.0.0.2:6000" := by
  decide

/-- C2 (the code at the failing input): Ann logs in with the right password
while the item query fails; the ok response is sent, the failure is logged, no
response with msgId = -1 is sent, and the handler ends in a panic. -/
theorem login_push_panics_when_item_query_fails :
    memEnv.db.selectItems annWorldItemsDown.db "ann@example.org" = .error .other
    ∧ (handleStep memEnv annWorldItemsDown (newSession "10.0.0.1:5000") (.ok annLogin)).1.sent =
        [("10.0.0.1:5000", .json { MsgId := 7, Action := "login", Items := [], Error := "" })]
    ∧ (handleStep memEnv annWorldItemsDown (newSession "10.0.0.1:5000") (.ok annLogin)).1.logged =
        ["error getting items: %v"]
    ∧ (handleStep memEnv annWorldItemsDown (newSession "10.0.0.1:5000") (.ok annLogin)).2.phase =
        .panicked :=
  ⟨rfl, by decide, by decide, by decide⟩

/-- C4 (the code at the failing input): a register message with an email and
an empty password is not rejected; the user row is created, the answer is ok,
and the session is authenticated and joined. -/
theorem register_empty_password_accepted :
    bobRegisterNoPassword.User.Password = ""
    ∧ (handleStep memEnv annWorld (newSession "10.0.0.1:5000")
        (.ok bobRegisterNoPassword)).1.sent =
        [("10.0.0.1:5000", .json { MsgId := 3, Action := "register", Items := [], Error := "" })]
    ∧ (handleStep memEnv annWorld (newSession "10.0.0.1:5000")
        (.ok bobRegisterNoPassword)).1.db.users =
        [("ann@example.org", "bcrypt:tea"), ("bob@example.org", "bcrypt:")]
    ∧ (handleStep memEnv annWorld (newSession "10.0.0.1:5000")
        (.ok bobRegisterNoPassword)).2 =
        { addr := "10.0.0.1:5000", phase := .authenticated, email := "bob@example.org",
          connsMap := ["10.0.0.1:5000"] } := by
  decide

/-- C5 (the code at the failing input): Bob, who is not a stored user,
registers while the user table fails with an error other than the uniqueness
violation; the answer is "user already exists" and nothing is logged. -/
theorem register_other_failure_says_user_exists :
    annWorldUsersDown.db.users.lookup "bob@example.org" = none
    ∧ memEnv.db.insertUser annWorldUsersDown.db "bob@example.org" "bcrypt:pw" = .error .other
    ∧ (handleStep memEnv annWorldUsersDown (newSession "10.0.0.1:5000") (.ok bobRegister)).1.sent =
        [("10.0.0.1:5000", .json
          { MsgId := 4, Action := "register", Items := [], Error := "user already exists" })]
    ∧ (handleStep memEnv annWorldUsersDown (newSession "10.0.0.1:5000") (.ok bobRegister)).1.logged
        = [] :=
  ⟨by decide, rfl, by decide, by decide⟩

/-- C9 (the code at the failing input): on an authenticated connection a
decoded get whose item query fails ends the loop, by a panic, though the
receive did not report EOF; the deferred delete empties the handler's connsMap
as on EOF.  So EOF is not the only receive outcome after which the
authenticated loop ends. -/
theorem authenticated_loop_ends_without_eof :
    annSession.phase = .authenticated
    ∧ Recv.ok getAsEve ≠ Recv.eof
    ∧ (handleStep memEnv annWorldItemsDown annSession (.ok getAsEve)).2.phase ≠ .authenticated
    ∧ (handleStep memEnv annWorldItemsDown annSession (.ok getAsEve)).2.connsMap = []
    ∧ ¬ (∀ r, (handleStep memEnv annWorldItemsDown annSession r).2.phase ≠ .authenticated →
          r = Recv.eof) :=
  ⟨rfl, by decide, by decide, by decide,
    fun h => absurd (h (.ok getAsEve) (by decide)) (by decide)⟩

/-- C8 (the code at the failing input): an authenticated get while the item
query fails is answered with "internal server error", after which the handler
ends in a panic: a further get on the same connection is never read. -/
theorem get_query_failure_ends_handler :
    memEnv.db.selectItems annWorldItemsDown.db annSession.email = .error .other
    ∧ (handleStep memEnv annWorldItemsDown annSession (.ok getAsEve)).1.sent =
        [("10.0.0.1:5000", .json
          { MsgId := 9, Action := "get", Items := [], Error := "internal server error" })]
    ∧ (handleStep memEnv annWorldItemsDown annSession (.ok getAsEve)).2.phase = .panicked
    ∧ (handleWs memEnv annWorldItemsDown annSession [.ok getAsEve, .ok getAsEve]).1.sent =
        (handleStep memEnv annWorldItemsDown annSession (.ok getAsEve)).1.sent :=
  ⟨rfl, by decide, by decide, by decide⟩

/-! ## What does hold on the paths above -/

/-- A register message with an empty email is answered with "invalid email or
password" and nothing else happens. -/
theorem register_empty_email_rejected {σ : Type} (env : Env σ) (w : World σ) (s : Session)
    (msg : Message) (hphase : s.phase = .unauthenticated) (hact : msg.Action = ActionRegister)
    (hemail : msg.User.Email = "") :
    handleStep env w s (.ok msg) =
      ({ w with sent := w.sent ++ [(s.addr, .json
          { MsgId := msg.Id, Action := ActionRegister, Items := [],
            Error := "invalid email or password" })] }, s) := by
  simp [handleStep, hphase, unauthStep, hact, hemail, send, Message.errResp]

/-- Whatever error the user insert returns, the answer to a register message
is "user already exists", and the session stays unauthenticated. -/
theorem register_failure_says_user_exists {σ : Type} (env : Env σ) (w : World σ) (s : Session)
    (msg : Message) (hash : String) (e : DBError)
    (hphase : s.phase = .unauthenticated) (hact : msg.Action = ActionRegister)
    (hemail : msg.User.Email ≠ "")
    (hhash : env.generateFromPassword msg.User.Password = some hash)
    (hfail : env.db.insertUser w.db msg.User.Email hash = .error e) :
    handleStep env w s (.ok msg) =
      ({ w with sent := w.sent ++ [(s.addr, .json
          { MsgId := msg.Id, Action := ActionRegister, Items := [],
            Error := "user already exists" })] }, s) := by
  simp [handleStep, hphase, unauthStep, hact, hemail, hhash, hfail, send, Message.errResp]

/-- A login whose secret matches, when the item query and every row scan
succeed: the ok response, then one response with msgId = -1, action = get and
the queried items, both on the sender's connection; the session is
authenticated under the message's email with only its own connection in its
connsMap copy. -/
theorem login_success_pushes_items {σ : Type} (env : Env σ) (w : World σ) (s : Session)
    (msg : Message) (hash : String) (rows : List Row)
    (hphase : s.phase = .unauthenticated) (hact : msg.Action = ActionLogin)
    (hrow : env.db.selectPasswordHash w.db msg.User.Email = .ok hash)
    (hgood : env.compareHashAndPassword hash msg.User.Password = true)
    (hquery : env.db.selectItems w.db msg.User.Email = .ok rows)
    (hscan : ∀ row ∈ rows, row.scanErr = false) :
    (handleStep env w s (.ok msg)).1.sent = w.sent ++
      [(s.addr, .json { MsgId := msg.Id, Action := ActionLogin, Items := [], Error := "" }),
       (s.addr, .json
        { MsgId := -1, Action := ActionGet, Items := rows.map (fun row => row.item),
          Error := "" })]
    ∧ (handleStep env w s (.ok msg)).2.phase = .authenticated
    ∧ (handleStep env w s (.ok msg)).2.email = msg.User.Email := by
  have hne : ActionLogin ≠ ActionRegister := by decide
  simp [handleStep, hphase, unauthStep, hact, hne, hrow, hgood, joinAndPush, send, hquery,
    scanRows_all_scanned _ _ _ _ hscan, Message.okResp]

/-- A login whose secret matches, when the item query fails: only the ok
response is written and the handler ends in a panic. -/
theorem login_query_failure_panics {σ : Type} (env : Env σ) (w : World σ) (s : Session)
    (msg : Message) (hash : String) (e : DBError)
    (hphase : s.phase = .unauthenticated) (hact : msg.Action = ActionLogin)
    (hrow : env.db.selectPasswordHash w.db msg.User.Email = .ok hash)
    (hgood : env.compareHashAndPassword hash msg.User.Password = true)
    (hquery : env.db.selectItems w.db msg.User.Email = .error e) :
    (handleStep env w s (.ok msg)).1.sent = w.sent ++
      [(s.addr, .json { MsgId := msg.Id, Action := ActionLogin, Items := [], Error := "" })]
    ∧ (handleStep env w s (.ok msg)).2.phase = .panicked := by
  have hne : ActionLogin ≠ ActionRegister := by decide
  simp [handleStep, hphase, unauthStep, hact, hne, hrow, hgood, joinAndPush, send, hquery,
    logf, Session.unwind, Message.okResp]

/-- An authenticated get, when the item query and every row scan succeed: one
response carrying the message id, action = get, the items queried under the
email captured at authentication (the message's user field plays no part) and
an empty error; the session is unchanged. -/
theorem get_success_returns_items {σ : Type} (env : Env σ) (w : World σ) (s : Session)
    (msg : Message) (rows : List Row)
    (hphase : s.phase = .authenticated) (hact : msg.Action = ActionGet)
    (hquery : env.db.selectItems w.db s.email = .ok rows)
    (hscan : ∀ row ∈ rows, row.scanErr = false) :
    handleStep env w s (.ok msg) =
      ({ w with sent := w.sent ++ [(s.addr, .json
          { MsgId := msg.Id, Action := ActionGet, Items := rows.map (fun row => row.item),
            Error := "" })] }, s) := by
  have hne1 : ActionGet ≠ ActionInsert := by decide
  have hne2 : ActionGet ≠ ActionUpdate := by decide
  simp [handleStep, hphase, authStep, hact, hne1, hne2, hquery,
    scanRows_all_scanned _ _ _ _ hscan, send, Message.errResp]

/-- An authenticated get, when the item query fails: one response with the
error "internal server error" and no items, and the handler ends in a panic. -/
theorem get_query_failure_panics {σ : Type} (env : Env σ) (w : World σ) (s : Session)
    (msg : Message) (e : DBError)
    (hphase : s.phase = .authenticated) (hact : msg.Action = ActionGet)
    (hquery : env.db.selectItems w.db s.email = .error e) :
    (handleStep env w s (.ok msg)).1.sent = w.sent ++ [(s.addr, .json
        { MsgId := msg.Id, Action := ActionGet, Items := [], Error := "internal server error" })]
    ∧ (handleStep env w s (.ok msg)).2.phase = .panicked
    ∧ ∀ w1 r, handleStep env w1 (handleStep env w s (.ok msg)).2 r
        = (w1, (handleStep env w s (.ok msg)).2) := by
  have hne1 : ActionGet ≠ ActionInsert := by decide
  have hne2 : ActionGet ≠ ActionUpdate := by decide
  have h : handleStep env w s (.ok msg) =
      (send (logf w "error querying items: %v") s.addr
        (.json (msg.errResp "internal server error")), s.unwind .panicked) := by
    simp [handleStep, hphase, authStep, hact, hne1, hne2, hquery]
  rw [h]
  refine ⟨by simp [send, logf, Message.errResp, hact], rfl, ?_⟩
  intro w1 r
  simp [handleStep, Session.unwind]

/-- A successful insert is broadcast to the connections in the handler's own
connsMap: one response with msgId = -1, action = insert and the message's item
under the generated id. -/
theorem insert_success_broadcast {σ : Type} (env : Env σ) (w : World σ) (s : Session)
    (msg : Message) (db1 : σ) (res : ExecResult)
    (hphase : s.phase = .authenticated) (hact : msg.Action = ActionInsert)
    (hexec : env.db.insertItem w.db = .ok (db1, res)) :
    (handleStep env w s (.ok msg)).1.sent = w.sent ++ s.connsMap.map (fun c => (c, .json
        { MsgId := -1, Action := ActionInsert,
          Items := [{ msg.Item with Id := res.lastInsertId }], Error := "" }))
    ∧ (handleStep env w s (.ok msg)).2 = s := by
  have h : handleStep env w s (.ok msg) =
      (broadcast (if res.lastInsertIdErr then
          logf { w with db := db1 } "error gettintg last insert id: %v"
        else { w with db := db1 }) s.connsMap
        ({ msg with Item := { msg.Item with Id := res.lastInsertId } } : Message).itemResp, s) := by
    simp [handleStep, hphase, authStep, hact, hexec]
  rw [h]
  refine ⟨?_, rfl⟩
  rw [broadcast_sent]
  by_cases hl : res.lastInsertIdErr = true <;> simp [hl, logf, Message.itemResp, hact]

/-! ## The connection map of a handler is private -/

theorem lookup_mem (m : List (String × ConnsMap)) (key : String) (value : ConnsMap)
    (h : m.lookup key = some value) : (key, value) ∈ m := by
  induction m with
  | nil => simp at h
  | cons p rest ih =>
    obtain ⟨k, v⟩ := p
    by_cases hk : key = k
    · subst hk
      simp [List.lookup] at h
      simp [h]
    · have hb : (key == k) = false := by simpa using hk
      simp [List.lookup, hb] at h
      exact List.mem_cons_of_mem _ (ih h)

theorem loadOrStore_empty (m : List (String × ConnsMap)) (key : String)
    (hreg : ∀ p ∈ m, p.2 = []) :
    (loadOrStore m key []).2 = [] ∧ ∀ p ∈ (loadOrStore m key []).1, p.2 = [] := by
  unfold loadOrStore
  cases h : m.lookup key with
  | none =>
    refine ⟨rfl, ?_⟩
    intro p hp
    simp only [List.mem_append, List.mem_singleton] at hp
    rcases hp with hp | hp
    · exact hreg p hp
    · rw [hp]
  | some actual =>
    exact ⟨hreg _ (lookup_mem m key actual h), hreg⟩

theorem joinAndPush_private {σ : Type} (env : Env σ) (w : World σ) (s : Session) (msg : Message)
    (hreg : ∀ p ∈ w.activeUsers, p.2 = []) :
    (∀ p ∈ (joinAndPush env w s msg).1.activeUsers, p.2 = [])
    ∧ (joinAndPush env w s msg).2.addr = s.addr
    ∧ (∀ a ∈ (joinAndPush env w s msg).2.connsMap, a = s.addr)
    ∧ (∀ x ∈ (joinAndPush env w s msg).1.sent, x ∈ w.sent ∨ x.1 = s.addr) := by
  obtain ⟨h1, h2⟩ := loadOrStore_empty w.activeUsers msg.User.Email hreg
  simp only [joinAndPush, h1]
  split_ifs
  · split
    · refine ⟨?_, rfl, ?_, ?_⟩
      · simpa [logf] using h2
      · simp [Session.unwind, ConnsMap.delete, ConnsMap.store]
      · intro x hx
        left
        simpa [logf] using hx
    · refine ⟨?_, rfl, ?_, ?_⟩
      · simpa [send, (scanRows_world _ _ _ _).2.2] using h2
      · simp [ConnsMap.store]
      · intro x hx
        simp only [send, (scanRows_world _ _ _ _).1, List.mem_append, List.mem_singleton] at hx
        rcases hx with hx | hx
        · exact Or.inl hx
        · right; rw [hx]
  · refine ⟨?_, rfl, ?_, ?_⟩
    · simpa using h2
    · simp [ConnsMap.store]
    · intro x hx
      exact Or.inl hx

/-- In a server where every value stored in the table of active users is the
empty map (as it is at start), a handler whose connsMap holds at most its own
connection keeps both facts after handling any receive outcome, and every frame
it writes goes to its own connection: no handler ever writes to the connection
of another handler. -/
theorem handler_writes_only_to_own_connection {σ : Type} (env : Env σ) (w : World σ)
    (s : Session) (r : Recv)
    (hreg : ∀ p ∈ w.activeUsers, p.2 = [])
    (hown : ∀ a ∈ s.connsMap, a = s.addr) :
    (∀ p ∈ (handleStep env w s r).1.activeUsers, p.2 = [])
    ∧ (handleStep env w s r).2.addr = s.addr
    ∧ (∀ a ∈ (handleStep env w s r).2.connsMap, a = s.addr)
    ∧ (∀ x ∈ (handleStep env w s r).1.sent, x ∈ w.sent ∨ x.1 = s.addr) := by
  have hsend : ∀ (w0 : World σ) (f : Frame), (∀ x ∈ w0.sent, x ∈ w.sent ∨ x.1 = s.addr) →
      ∀ x ∈ (send w0 s.addr f).sent, x ∈ w.sent ∨ x.1 = s.addr := by
    intro w0 f h0 x hx
    simp only [send, List.mem_append, List.mem_singleton] at hx
    rcases hx with hx | hx
    · exact h0 x hx
    · right; rw [hx]
  have hbase : ∀ x ∈ w.sent, x ∈ w.sent ∨ x.1 = s.addr := fun x hx => Or.inl hx
  have hcast : ∀ (w0 : World σ) (resp : Response), (∀ x ∈ w0.sent, x ∈ w.sent ∨ x.1 = s.addr) →
      ∀ x ∈ (broadcast w0 s.connsMap resp).sent, x ∈ w.sent ∨ x.1 = s.addr := by
    intro w0 resp h0 x hx
    rw [broadcast_sent] at hx
    simp only [List.mem_append, List.mem_map] at hx
    rcases hx with hx | ⟨c, hc, hx⟩
    · exact h0 x hx
    · right; rw [← hx]; exact hown c hc
  have hjoin : ∀ (w0 : World σ) (msg : Message), (∀ p ∈ w0.activeUsers, p.2 = []) →
      (∀ x ∈ w0.sent, x ∈ w.sent ∨ x.1 = s.addr) →
      (∀ p ∈ (joinAndPush env w0 s msg).1.activeUsers, p.2 = [])
      ∧ (joinAndPush env w0 s msg).2.addr = s.addr
      ∧ (∀ a ∈ (joinAndPush env w0 s msg).2.connsMap, a = s.addr)
      ∧ (∀ x ∈ (joinAndPush env w0 s msg).1.sent, x ∈ w.sent ∨ x.1 = s.addr) := by
    intro w0 msg h0 h1
    obtain ⟨j1, j2, j3, j4⟩ := joinAndPush_private env w0 s msg h0
    refine ⟨j1, j2, j3, ?_⟩
    intro x hx
    rcases j4 x hx with h | h
    · exact h1 x h
    · exact Or.inr h
  unfold handleStep
  split
  · -- the unauthenticated loop
    unfold unauthStep
    split
    · exact ⟨hreg, rfl, hown, hsend w _ hbase⟩
    · exact ⟨hreg, rfl, hown, hsend w _ hbase⟩
    · rename_i msg
      split_ifs
      · exact ⟨hreg, rfl, hown, hsend w _ hbase⟩
      · -- register
        have hw1 : ∀ f, (∀ p ∈ (if (env.generateFromPassword msg.User.Password).isNone = true
              then send w s.addr f else w).activeUsers, p.2 = [])
            ∧ (∀ x ∈ (if (env.generateFromPassword msg.User.Password).isNone = true
              then send w s.addr f else w).sent, x ∈ w.sent ∨ x.1 = s.addr) := by
          intro f
          by_cases hh : (env.generateFromPassword msg.User.Password).isNone = true
          · simp only [hh, if_true]
            exact ⟨hreg, hsend w f hbase⟩
          · simp only [hh]
            exact ⟨hreg, hbase⟩
        dsimp only
        split
        · have hsome : ∀ e : DBError, (some e).isSome = true := fun _ => rfl
          rw [if_pos (hsome _)]
          exact ⟨(hw1 _).1, rfl, hown, hsend _ _ (hw1 _).2⟩
        · exact hjoin _ msg (hw1 _).1 (hsend _ _ (hw1 _).2)
      · -- login
        split
        · split_ifs
          · exact ⟨hreg, rfl, hown, hsend w _ hbase⟩
          · exact ⟨hreg, rfl, hown, hsend _ _ hbase⟩
        · split_ifs
          · exact ⟨hreg, rfl, hown, hsend w _ hbase⟩
          · exact hjoin _ msg hreg (hsend w _ hbase)
      · exact ⟨hreg, rfl, hown, hsend w _ hbase⟩
  · -- the authenticated loop
    have hdel : ∀ a ∈ ConnsMap.delete s.connsMap s.addr, a = s.addr := by
      intro a ha
      exact hown a (List.mem_of_mem_filter ha)
    unfold authStep
    split
    · exact ⟨hreg, rfl, hdel, hbase⟩
    · exact ⟨hreg, rfl, hown, hsend w _ hbase⟩
    · rename_i msg
      split_ifs
      · -- insert
        split
        · exact ⟨hreg, rfl, hown, hsend _ _ hbase⟩
        · rename_i db1 res _
          refine ⟨?_, rfl, hown, ?_⟩
          · rw [(broadcast_rest _ _ _).2.1]
            by_cases hl : res.lastInsertIdErr = true <;> simpa [hl, logf] using hreg
          · apply hcast
            by_cases hl : res.lastInsertIdErr = true <;> simpa [hl, logf] using hbase
      · -- update
        split
        · exact ⟨hreg, rfl, hown, hsend _ _ hbase⟩
        · refine ⟨?_, rfl, hown, ?_⟩
          · rw [(broadcast_rest _ _ _).2.1]
            exact hreg
          · exact hcast _ _ (hsend _ _ hbase)
      · -- get
        split
        · exact ⟨hreg, rfl, hdel, hsend _ _ hbase⟩
        · refine ⟨?_, rfl, hown, ?_⟩
          · simpa [send, (scanRows_world _ _ _ _).2.2] using hreg
          · apply hsend
            rw [(scanRows_world _ _ _ _).1]
            exact hbase
      · exact ⟨hreg, rfl, hown, hsend w _ hbase⟩
  · exact ⟨hreg, rfl, hown, hbase⟩
  · exact ⟨hreg, rfl, hown, hbase⟩

/-- The same over a whole run of a handler: whatever it receives, it writes to
its own connection only. -/
theorem handleWs_writes_only_to_own_connection {σ : Type} (env : Env σ) (rs : List Recv)
    (w : World σ) (s : Session)
    (hreg : ∀ p ∈ w.activeUsers, p.2 = [])
    (hown : ∀ a ∈ s.connsMap, a = s.addr) :
    (∀ p ∈ (handleWs env w s rs).1.activeUsers, p.2 = [])
    ∧ (handleWs env w s rs).2.addr = s.addr
    ∧ (∀ a ∈ (handleWs env w s rs).2.connsMap, a = s.addr)
    ∧ (∀ x ∈ (handleWs env w s rs).1.sent, x ∈ w.sent ∨ x.1 = s.addr) := by
  induction rs generalizing w s with
  | nil => exact ⟨hreg, rfl, hown, fun x hx => Or.inl hx⟩
  | cons r rest ih =>
    obtain ⟨h1, h2, h3, h4⟩ := handler_writes_only_to_own_connection env w s r hreg hown
    obtain ⟨k1, k2, k3, k4⟩ := ih (handleStep env w s r).1 (handleStep env w s r).2 h1
      (fun a ha => by rw [h2]; exact h3 a ha)
    simp only [handleWs]
    refine ⟨k1, by rw [k2, h2], fun a ha => by rw [← h2]; exact k3 a ha, ?_⟩
    intro x hx
    rcases k4 x hx with h | h
    · exact h4 x h
    · right; rw [h, h2]

end Simplist
